import Mathlib

/-!
Shallow embedding of the xTools serial-terminal front-end
(`src/src/App.vue`) and verification of its specification claims.

The front-end keeps all mutable state in Vue refs; we model it as an
explicit `AppState` record and each handler as a pure state-transition
function.  Calls to the Tauri backend (`invoke("send_data", ...)` etc.)
are external: their outcome is passed in as an `Except String _` value,
and the call issued by a handler is returned so that theorems can speak
about the payload actually forwarded for transmission.
-/

namespace XTools

/-- The UTF-16 code unit JavaScript returns for `c.charCodeAt(0)` on a
single-code-point string: the code point itself inside the BMP, the high
surrogate for an astral code point. -/
def charCodeAt0 (c : Char) : Nat :=
  if c.toNat < 0x10000 then c.toNat else 0xD800 + (c.toNat - 0x10000) / 0x400

/-- One uppercase hexadecimal digit, as `n.toString(16).toUpperCase()`
produces digit by digit. -/
def hexDigit : Nat → Char
  | 0 => '0' | 1 => '1' | 2 => '2' | 3 => '3'
  | 4 => '4' | 5 => '5' | 6 => '6' | 7 => '7'
  | 8 => '8' | 9 => '9' | 10 => 'A' | 11 => 'B'
  | 12 => 'C' | 13 => 'D' | 14 => 'E' | 15 => 'F'
  | _ => '0'

/-- JavaScript `n.toString(16)` (then upper-cased): most-significant-first
hexadecimal digits of `n`, a single digit for `n < 16`. -/
def jsToStringHex (n : Nat) : List Char :=
  if h : n < 16 then [hexDigit n]
  else jsToStringHex (n / 16) ++ [hexDigit (n % 16)]
decreasing_by exact Nat.div_lt_self (by omega) (by omega)

/-- JavaScript `.padStart(2, "0")` on a digit list. -/
def padStart2Chars (l : List Char) : List Char :=
  if l.length < 2 then List.replicate (2 - l.length) '0' ++ l else l

/-- The cell `c.charCodeAt(0).toString(16).toUpperCase().padStart(2, "0")`
computed for one UTF-16 code unit `n`. -/
def byteHexChars (n : Nat) : List Char :=
  padStart2Chars (jsToStringHex n)

/-- JavaScript `Array.prototype.join(" ")` at the character-list level. -/
def joinSpace : List (List Char) → List Char
  | [] => []
  | [x] => x
  | x :: y :: xs => x ++ ' ' :: joinSpace (y :: xs)

/-- `stringToHex` from App.vue (lines 203-207): map every code point of the
string to its two-digit uppercase hex cell and join the cells with single
spaces. -/
def stringToHex (s : String) : String :=
  String.mk (joinSpace (s.data.map (fun c => byteHexChars (charCodeAt0 c))))

/-- The canonical uppercase two-digit-per-byte single-space-separated hex
encoding of a byte sequence, the format the spec calls canonical. -/
def encodeBytes (b : List Nat) : String :=
  String.mk (joinSpace (b.map byteHexChars))

/-- Value of one uppercase hexadecimal digit character (0 elsewhere). -/
def hexCharToNat (c : Char) : Nat :=
  if 48 ≤ c.toNat ∧ c.toNat ≤ 57 then c.toNat - 48
  else if 65 ≤ c.toNat ∧ c.toNat ≤ 70 then c.toNat - 55
  else 0

/-- Byte-pair-by-byte-pair decoder for the canonical encoding: reads two
hex digits, then expects a single separating space before the next pair. -/
def hexPairsDecode : List Char → Option (List Nat)
  | [] => some []
  | [h, l] => some [hexCharToNat h * 16 + hexCharToNat l]
  | h :: l :: ' ' :: rest =>
    (hexPairsDecode rest).map (fun bs => (hexCharToNat h * 16 + hexCharToNat l) :: bs)
  | _ => none

/-- Uppercase hexadecimal digit character test. -/
def isUpperHexDigit (c : Char) : Bool :=
  (48 ≤ c.toNat && c.toNat ≤ 57) || (65 ≤ c.toNat && c.toNat ≤ 70)

lemma charCodeAt0_small {c : Char} (h : c.toNat < 256) : charCodeAt0 c = c.toNat := by
  unfold charCodeAt0
  rw [if_pos (by omega)]

lemma jsToStringHex_small {n : Nat} (h : n < 16) : jsToStringHex n = [hexDigit n] := by
  rw [jsToStringHex]
  exact dif_pos h

lemma jsToStringHex_two {n : Nat} (h1 : 16 ≤ n) (h2 : n < 256) :
    jsToStringHex n = [hexDigit (n / 16), hexDigit (n % 16)] := by
  rw [jsToStringHex, dif_neg (by omega), jsToStringHex_small (by omega)]
  rfl

lemma byteHexChars_eq {n : Nat} (h : n < 256) :
    byteHexChars n = [hexDigit (n / 16), hexDigit (n % 16)] := by
  by_cases h16 : n < 16
  · have hd : n / 16 = 0 := Nat.div_eq_of_lt h16
    have hm : n % 16 = n := Nat.mod_eq_of_lt h16
    rw [byteHexChars, jsToStringHex_small h16, hd, hm]
    rfl
  · rw [byteHexChars, jsToStringHex_two (by omega) h]
    rfl

lemma hexCharToNat_hexDigit : ∀ d < 16, hexCharToNat (hexDigit d) = d := by decide

lemma decode_pair {b : Nat} (h : b < 256) :
    hexCharToNat (hexDigit (b / 16)) * 16 + hexCharToNat (hexDigit (b % 16)) = b := by
  rw [hexCharToNat_hexDigit _ (by omega), hexCharToNat_hexDigit _ (by omega)]
  omega

lemma isUpperHexDigit_hexDigit (d : Nat) : isUpperHexDigit (hexDigit d) = true := by
  unfold hexDigit
  split <;> decide

lemma hexDigit_ne_space (d : Nat) : hexDigit d ≠ ' ' := by
  unfold hexDigit
  split <;> decide

lemma hexPairsDecode_nil : hexPairsDecode [] = some [] := rfl

lemma hexPairsDecode_two (h l : Char) :
    hexPairsDecode [h, l] = some [hexCharToNat h * 16 + hexCharToNat l] := rfl

lemma hexPairsDecode_more (h l : Char) (rest : List Char) :
    hexPairsDecode (h :: l :: ' ' :: rest) =
      (hexPairsDecode rest).map (fun bs => (hexCharToNat h * 16 + hexCharToNat l) :: bs) := rfl

lemma hexPairsDecode_encode :
    ∀ b : List Nat, (∀ x ∈ b, x < 256) →
      hexPairsDecode (joinSpace (b.map byteHexChars)) = some b := by
  intro b
  induction b with
  | nil => intro _; exact hexPairsDecode_nil
  | cons x t ih =>
    intro hb
    have hx : x < 256 := hb x (by simp)
    match t with
    | [] =>
      simp only [List.map_cons, List.map_nil, joinSpace, byteHexChars_eq hx]
      rw [hexPairsDecode_two, decode_pair hx]
    | y :: t2 =>
      have hrest := ih (fun z hz => hb z (List.mem_cons_of_mem x hz))
      simp only [List.map_cons, joinSpace, byteHexChars_eq hx]
      show hexPairsDecode
          (hexDigit (x / 16) :: hexDigit (x % 16) :: ' ' ::
            joinSpace (byteHexChars y :: t2.map byteHexChars)) = _
      rw [hexPairsDecode_more]
      simp only [List.map_cons] at hrest
      rw [hrest, Option.map_some', decode_pair hx]

lemma hexDigit_beq_space (d : Nat) : (hexDigit d == ' ') = false := by
  unfold hexDigit
  split <;> decide

lemma joinSpace_count_nonspace :
    ∀ b : List Nat, (∀ x ∈ b, x < 256) →
      (joinSpace (b.map byteHexChars)).countP (fun c => !(c == ' ')) = 2 * b.length := by
  intro b
  induction b with
  | nil => intro _; rfl
  | cons x t ih =>
    intro hb
    have hx : x < 256 := hb x (by simp)
    match t with
    | [] =>
      simp only [List.map_cons, List.map_nil, joinSpace, byteHexChars_eq hx]
      simp [List.countP_cons, hexDigit_beq_space]
    | y :: t2 =>
      have hrest := ih (fun z hz => hb z (List.mem_cons_of_mem x hz))
      simp only [List.map_cons, joinSpace, byteHexChars_eq hx] at hrest ⊢
      show List.countP _ (hexDigit (x / 16) :: hexDigit (x % 16) :: ' ' ::
        joinSpace (byteHexChars y :: t2.map byteHexChars)) = _
      simp only [List.countP_cons, hexDigit_beq_space, List.map_cons] at hrest ⊢
      simp only [hrest]
      simp [Nat.mul_add, Nat.mul_succ]

lemma joinSpace_count_space :
    ∀ b : List Nat, (∀ x ∈ b, x < 256) →
      (joinSpace (b.map byteHexChars)).countP (fun c => c == ' ') = b.length - 1 := by
  intro b
  induction b with
  | nil => intro _; rfl
  | cons x t ih =>
    intro hb
    have hx : x < 256 := hb x (by simp)
    match t with
    | [] =>
      simp only [List.map_cons, List.map_nil, joinSpace, byteHexChars_eq hx]
      simp [List.countP_cons, hexDigit_beq_space]
    | y :: t2 =>
      have hrest := ih (fun z hz => hb z (List.mem_cons_of_mem x hz))
      simp only [List.map_cons, joinSpace, byteHexChars_eq hx] at hrest ⊢
      show List.countP _ (hexDigit (x / 16) :: hexDigit (x % 16) :: ' ' ::
        joinSpace (byteHexChars y :: t2.map byteHexChars)) = _
      simp only [List.countP_cons, hexDigit_beq_space, List.map_cons] at hrest ⊢
      simp only [hrest]
      simp

lemma joinSpace_mem_class :
    ∀ b : List Nat, (∀ x ∈ b, x < 256) →
      ∀ c ∈ joinSpace (b.map byteHexChars), c = ' ' ∨ isUpperHexDigit c := by
  intro b
  induction b with
  | nil => intro _ c hc; simp [joinSpace] at hc
  | cons x t ih =>
    intro hb c hc
    have hx : x < 256 := hb x (by simp)
    match t with
    | [] =>
      simp only [List.map_cons, List.map_nil, joinSpace, byteHexChars_eq hx] at hc
      simp only [List.mem_cons, List.not_mem_nil, or_false] at hc
      rcases hc with rfl | rfl
      · exact Or.inr (isUpperHexDigit_hexDigit _)
      · exact Or.inr (isUpperHexDigit_hexDigit _)
    | y :: t2 =>
      have hrest := ih (fun z hz => hb z (List.mem_cons_of_mem x hz))
      simp only [List.map_cons, joinSpace, byteHexChars_eq hx] at hc
      rcases List.mem_append.mp hc with h1 | h1
      · simp only [List.mem_cons, List.not_mem_nil, or_false] at h1
        rcases h1 with rfl | rfl
        · exact Or.inr (isUpperHexDigit_hexDigit _)
        · exact Or.inr (isUpperHexDigit_hexDigit _)
      · rcases List.mem_cons.mp h1 with rfl | h2
        · exact Or.inl rfl
        · exact hrest c (by simpa using h2)

lemma stringToHex_eq_encodeBytes (s : String) (h : ∀ c ∈ s.data, c.toNat < 256) :
    stringToHex s = encodeBytes (s.data.map Char.toNat) := by
  unfold stringToHex encodeBytes
  rw [List.map_map]
  have : s.data.map (fun c => byteHexChars (charCodeAt0 c)) =
      s.data.map (byteHexChars ∘ Char.toNat) := by
    apply List.map_congr_left
    intro c hc
    simp [Function.comp, charCodeAt0_small (h c hc)]
  rw [this]

/-- C2: for every byte sequence (a string whose code points are all in
0..255) `stringToHex` produces the canonical encoding: `2*len` uppercase
hex characters, `len-1` single-space separators, and byte-pair decoding
reproduces the original byte sequence exactly. -/
theorem C2_stringToHex_canonical_roundtrip (s : String)
    (hs : ∀ c ∈ s.data, c.toNat < 256) :
    stringToHex s = encodeBytes (s.data.map Char.toNat)
    ∧ (stringToHex s).data.countP (fun c => !(c == ' ')) = 2 * s.data.length
    ∧ (stringToHex s).data.countP (fun c => c == ' ') = s.data.length - 1
    ∧ (∀ c ∈ (stringToHex s).data, c = ' ' ∨ isUpperHexDigit c)
    ∧ hexPairsDecode (stringToHex s).data = some (s.data.map Char.toNat) := by
  have hb : ∀ x ∈ s.data.map Char.toNat, x < 256 := by
    intro x hx
    rcases List.mem_map.mp hx with ⟨c, hc, rfl⟩
    exact hs c hc
  have hdata : (stringToHex s).data = joinSpace ((s.data.map Char.toNat).map byteHexChars) := by
    rw [stringToHex_eq_encodeBytes s hs]
    rfl
  refine ⟨stringToHex_eq_encodeBytes s hs, ?_, ?_, ?_, ?_⟩
  · rw [hdata, joinSpace_count_nonspace _ hb]
    simp
  · rw [hdata, joinSpace_count_space _ hb]
    simp
  · rw [hdata]
    exact joinSpace_mem_class _ hb
  · rw [hdata]
    exact hexPairsDecode_encode _ hb

/-- Witness for C2 at the concrete input "Hello". -/
theorem C2_stringToHex_canonical_roundtrip_witness :
    hexPairsDecode (stringToHex "Hello").data =
      some (("Hello" : String).data.map Char.toNat) :=
  (C2_stringToHex_canonical_roundtrip "Hello" (by decide)).2.2.2.2

/-! ## Data model and application state (App.vue lines 5-96) -/

structure PortInfo where
  name : String
  description : String
deriving Repr, DecidableEq

structure DataEntry where
  timestamp : String
  data : String
  hex : String
  direction : String
deriving Repr, DecidableEq

structure SerialConfig where
  port : String
  baud_rate : Nat
  custom_baud_rate : Nat
  data_bits : Nat
  stop_bits : Nat
  parity : String
  hex_mode : Bool
  append_newline : Bool
  newline_type : String
deriving Repr, DecidableEq

structure DisplayConfig where
  auto_scroll : Bool
  show_timestamp : Bool
  show_hex : Bool
  font_size : Nat
  terminal_mode : Bool
deriving Repr, DecidableEq

structure AppConfig where
  serial : SerialConfig
  display : DisplayConfig
deriving Repr, DecidableEq

/-- The mutable refs of App.vue gathered into one record.  `polling` models
`pollInterval !== null`, `scrollRequests` counts `scrollToBottom()` calls,
`alerts` collects `alert(...)` messages and `consoleErrors` the
`console.error(...)` messages. -/
structure AppState where
  ports : List PortInfo
  connected : Bool
  dataLog : List DataEntry
  sendText : String
  searchText : String
  showSearch : Bool
  searchIndex : Int
  config : AppConfig
  terminalBuffer : String
  polling : Bool
  scrollRequests : Nat
  alerts : List String
  consoleErrors : List String
deriving Repr, DecidableEq

/-- The built-in default configuration (App.vue lines 53-72). -/
def defaultAppConfig : AppConfig where
  serial := {
    port := ""
    baud_rate := 115200
    custom_baud_rate := 0
    data_bits := 8
    stop_bits := 1
    parity := "none"
    hex_mode := false
    append_newline := true
    newline_type := "crlf" }
  display := {
    auto_scroll := true
    show_timestamp := true
    show_hex := false
    font_size := 14
    terminal_mode := false }

/-- The initial values of all refs (App.vue lines 44-85). -/
def initState : AppState where
  ports := []
  connected := false
  dataLog := []
  sendText := ""
  searchText := ""
  showSearch := false
  searchIndex := -1
  config := defaultAppConfig
  terminalBuffer := ""
  polling := false
  scrollRequests := 0
  alerts := []
  consoleErrors := []

/-- One `invoke("send_data", { data, hexMode })` call issued to the backend. -/
structure SendCall where
  data : String
  hexMode : Bool
deriving Repr, DecidableEq

/-! ## Handlers (App.vue lines 99-333), as pure state transitions.
Each backend call's outcome arrives as an `Except String _` argument. -/

/-- `refreshPorts` (lines 99-105): on success replace the port list, on
failure only log a console error. -/
def refreshPortsStep (st : AppState) (r : Except String (List PortInfo)) : AppState :=
  match r with
  | .ok ps => { st with ports := ps }
  | .error e => { st with consoleErrors := st.consoleErrors ++ ["获取串口列表失败: " ++ e] }

/-- `saveConfig` (lines 296-302): external persistence; failure only logs. -/
def saveConfigStep (st : AppState) (r : Except String Unit) : AppState :=
  match r with
  | .ok _ => st
  | .error e => { st with consoleErrors := st.consoleErrors ++ ["保存配置失败: " ++ e] }

/-- `connect` (lines 107-122): on a successful open, set `connected`,
start polling and persist the config; on failure alert. -/
def connectStep (st : AppState) (r : Except String Unit) (rs : Except String Unit) : AppState :=
  match r with
  | .ok _ => saveConfigStep { st with connected := true, polling := true } rs
  | .error e => { st with alerts := st.alerts ++ ["连接失败: " ++ e] }

/-- `disconnect` (lines 124-132): polling stops first; the handle release
outcome decides `connected`; failure only logs. -/
def disconnectStep (st : AppState) (r : Except String Unit) : AppState :=
  let st1 := { st with polling := false }
  match r with
  | .ok _ => { st1 with connected := false }
  | .error e => { st1 with consoleErrors := st1.consoleErrors ++ ["断开失败: " ++ e] }

/-- One tick of the 50 ms poll loop body (lines 136-148): append the drained
entries only when at least one arrived, scrolling if auto-scroll is on. -/
def pollTick (st : AppState) (r : Except String (List DataEntry)) : AppState :=
  match r with
  | .ok entries =>
    if entries.length > 0 then
      let st1 := { st with dataLog := st.dataLog ++ entries }
      if st1.config.display.auto_scroll then
        { st1 with scrollRequests := st1.scrollRequests + 1 }
      else st1
    else st
  | .error e => { st with consoleErrors := st.consoleErrors ++ ["读取数据失败: " ++ e] }

/-- The newline suffix `send` appends to the payload (lines 162-174):
nothing when `append_newline` is off, else per `newline_type` (the switch
has no default arm, so an unknown type appends nothing). -/
def newlineSuffix (cfg : SerialConfig) : String :=
  if cfg.append_newline then
    match cfg.newline_type with
    | "crlf" => "\r\n"
    | "lf" => "\n"
    | "cr" => "\r"
    | _ => ""
  else ""

/-- `send` (lines 158-201).  Returns the new state together with the
`send_data` call issued (`none` when the guard returns early).  `ts` is the
wall-clock timestamp string. -/
def sendStep (st : AppState) (ts : String) (r : Except String Unit) :
    AppState × Option SendCall :=
  if st.sendText == "" || !st.connected then (st, none)
  else
    let data := st.sendText ++ newlineSuffix st.config.serial
    let call : SendCall := { data := data, hexMode := st.config.serial.hex_mode }
    match r with
    | .ok _ =>
      let entry : DataEntry := {
        timestamp := ts
        data := st.sendText
        hex := if st.config.serial.hex_mode then st.sendText else stringToHex st.sendText
        direction := "tx" }
      let st1 := { st with dataLog := st.dataLog ++ [entry] }
      let st2 := if !st1.config.display.terminal_mode then { st1 with sendText := "" } else st1
      let st3 :=
        if st2.config.display.auto_scroll then
          { st2 with scrollRequests := st2.scrollRequests + 1 }
        else st2
      (st3, some call)
    | .error e => ({ st with alerts := st.alerts ++ ["发送失败: " ++ e] }, some call)

/-- `clearLog` (lines 217-220). -/
def clearLog (st : AppState) : AppState :=
  { st with dataLog := [], terminalBuffer := "" }

/-- `loadConfig` (lines 287-294): on success adopt the persisted config, on
failure only log, leaving the current (default) config in place. -/
def loadConfigStep (st : AppState) (r : Except String AppConfig) : AppState :=
  match r with
  | .ok cfg => { st with config := cfg }
  | .error e => { st with consoleErrors := st.consoleErrors ++ ["加载配置失败: " ++ e] }

/-- `saveLog` (lines 266-285): writes the rendered log externally; only the
alert stream changes in either outcome. -/
def saveLogStep (st : AppState) (fname : String) (r : Except String Unit) : AppState :=
  match r with
  | .ok _ => { st with alerts := st.alerts ++ ["日志已保存: " ++ fname] }
  | .error e => { st with alerts := st.alerts ++ ["保存失败: " ++ e] }

/-! ## Interactive terminal mode (App.vue lines 223-253) -/

/-- JavaScript `String.prototype.length`: number of UTF-16 code units. -/
def utf16Len (c : Char) : Nat := if c.toNat < 0x10000 then 1 else 2

/-- JavaScript `s.length`. -/
def jsLength (s : String) : Nat := (s.data.map utf16Len).sum

/-- JavaScript `s.charCodeAt(0)` (0 stands for the NaN of an empty string;
the code only reaches it on nonempty keys). -/
def firstCharCode (s : String) : Nat :=
  match s.data with
  | [] => 0
  | c :: _ => charCodeAt0 c

/-- JavaScript `toLowerCase` restricted to ASCII letters, which is exact for
every key name the handler compares. -/
def jsToLowerCase (s : String) : String := String.map Char.toLower s

/-- JavaScript lexicographic `<` on strings (code-unit order). -/
def jsStrLtChars : List Char → List Char → Bool
  | [], [] => false
  | [], _ :: _ => true
  | _ :: _, [] => false
  | a :: as, b :: bs =>
    if charCodeAt0 a < charCodeAt0 b then true
    else if charCodeAt0 b < charCodeAt0 a then false
    else jsStrLtChars as bs

/-- JavaScript `a <= b` on strings. -/
def jsStrLeChars (a b : List Char) : Bool := !(jsStrLtChars b a)

/-- The character `handleTerminalInput` selects for a keystroke
(lines 229-240), `none` when the handler returns without sending. -/
def terminalChar (key : String) (ctrlKey : Bool) : Option String :=
  if key == "Enter" then some "\r"
  else if key == "Backspace" then some "\x7f"
  else if jsLength key == 1 then some key
  else if ctrlKey && jsStrLeChars "a".data (jsToLowerCase key).data
      && jsStrLeChars (jsToLowerCase key).data "z".data then
    some (String.mk [Char.ofNat (firstCharCode (jsToLowerCase key) - 96)])
  else none

/-- `handleTerminalInput` (lines 223-253): guard on connection and terminal
mode, pick the character, send it in text mode, echo into the terminal
buffer on success, log on failure.  The data log is never touched. -/
def handleTerminalInput (st : AppState) (key : String) (ctrlKey : Bool)
    (r : Except String Unit) : AppState × Option SendCall :=
  if !st.connected || !st.config.display.terminal_mode then (st, none)
  else
    match terminalChar key ctrlKey with
    | none => (st, none)
    | some ch =>
      match r with
      | .ok _ =>
        ({ st with terminalBuffer := st.terminalBuffer ++ ch },
         some { data := ch, hexMode := false })
      | .error e =>
        ({ st with consoleErrors := st.consoleErrors ++ ["发送失败: " ++ e] },
         some { data := ch, hexMode := false })

/-! ## Search (App.vue lines 88-96, 315-333) -/

/-- Leading-match test on character lists (needle, then haystack). -/
def leadMatchChars : List Char → List Char → Bool
  | [], _ => true
  | _ :: _, [] => false
  | a :: as, b :: bs => a == b && leadMatchChars as bs

/-- JavaScript `hay.includes(needle)` on character lists. -/
def includesChars : List Char → List Char → Bool
  | [], needle => needle == []
  | h :: t, needle => leadMatchChars needle (h :: t) || includesChars t needle

/-- JavaScript `s.includes(sub)`. -/
def strIncludes (s sub : String) : Bool := includesChars s.data sub.data

/-- The `filteredLog` computed property (lines 88-96). -/
def filteredLog (st : AppState) : List DataEntry :=
  if st.searchText == "" then st.dataLog
  else
    st.dataLog.filter (fun e =>
      strIncludes (jsToLowerCase e.data) (jsToLowerCase st.searchText) ||
      strIncludes (jsToLowerCase e.hex) (jsToLowerCase st.searchText))

/-- `findNext` (lines 325-328). -/
def findNext (st : AppState) : AppState :=
  if st.searchText == "" || (filteredLog st).length == 0 then st
  else { st with searchIndex := (st.searchIndex + 1) % ((filteredLog st).length : Int) }

/-- `findPrev` (lines 330-333). -/
def findPrev (st : AppState) : AppState :=
  if st.searchText == "" || (filteredLog st).length == 0 then st
  else
    { st with searchIndex :=
        if st.searchIndex ≤ 0 then ((filteredLog st).length : Int) - 1
        else st.searchIndex - 1 }

/-- The Ctrl+F branch of `handleKeydown` (lines 315-323). -/
def toggleSearchStep (st : AppState) : AppState :=
  let shown := !st.showSearch
  { st with showSearch := shown, searchText := if !shown then "" else st.searchText }

/-! ## The operations of a session, for the log invariant -/

/-- Every user-visible operation of the front-end, with the outcome of any
backend call it performs carried as data. -/
inductive Op where
  | refresh (r : Except String (List PortInfo))
  | connectOp (r : Except String Unit) (rs : Except String Unit)
  | disconnectOp (r : Except String Unit)
  | poll (r : Except String (List DataEntry))
  | sendOp (ts : String) (r : Except String Unit)
  | clear
  | configOp (c : AppConfig) (rs : Except String Unit)
  | findNextOp
  | findPrevOp
  | toggleSearch
  | setSearch (s : String)
  | termInput (key : String) (ctrl : Bool) (r : Except String Unit)
  | loadConfigOp (r : Except String AppConfig)
  | saveLogOp (fname : String) (r : Except String Unit)

/-- Dispatch one operation to its handler.  A config change writes the new
value through the v-model and the deep watcher persists it (line 305). -/
def step (st : AppState) : Op → AppState
  | .refresh r => refreshPortsStep st r
  | .connectOp r rs => connectStep st r rs
  | .disconnectOp r => disconnectStep st r
  | .poll r => pollTick st r
  | .sendOp ts r => (sendStep st ts r).1
  | .clear => clearLog st
  | .configOp c rs => saveConfigStep { st with config := c } rs
  | .findNextOp => findNext st
  | .findPrevOp => findPrev st
  | .toggleSearch => toggleSearchStep st
  | .setSearch s => { st with searchText := s }
  | .termInput k c r => (handleTerminalInput st k c r).1
  | .loadConfigOp r => loadConfigStep st r
  | .saveLogOp f r => saveLogStep st f r

/-! ## Spec-modelled backend transmission -/

/-- Whitespace for the hex-mode token split. -/
def isWsChar (c : Char) : Bool := c == ' ' || c == '\t' || c == '\n' || c == '\r'

/-- Split on whitespace, dropping empty tokens; `acc` holds the current
token reversed. -/
def splitWsGo : List Char → List Char → List (List Char)
  | [], acc => if acc == [] then [] else [acc.reverse]
  | c :: rest, acc =>
    if isWsChar c then
      if acc == [] then splitWsGo rest []
      else acc.reverse :: splitWsGo rest []
    else splitWsGo rest (c :: acc)

def splitWs (l : List Char) : List (List Char) := splitWsGo l []

/-- Case-insensitive hexadecimal digit value. -/
def hexDigitValCI (c : Char) : Option Nat :=
  if 48 ≤ c.toNat ∧ c.toNat ≤ 57 then some (c.toNat - 48)
  else if 65 ≤ c.toNat ∧ c.toNat ≤ 70 then some (c.toNat - 55)
  else if 97 ≤ c.toNat ∧ c.toNat ≤ 102 then some (c.toNat - 87)
  else none

/-- A token of exactly one or two case-insensitive hex digits, as one byte. -/
def parseHexToken : List Char → Option Nat
  | [c] => hexDigitValCI c
  | [c1, c2] =>
    match hexDigitValCI c1, hexDigitValCI c2 with
    | some a, some b => some (a * 16 + b)
    | _, _ => none
  | _ => none

def parseHexTokens : List (List Char) → Option (List Nat)
  | [] => some []
  | t :: ts =>
    match parseHexToken t, parseHexTokens ts with
    | some b, some bs => some (b :: bs)
    | _, _ => none

/-- UTF-8 encoding of one code point. -/
def utf8Bytes (c : Char) : List Nat :=
  let n := c.toNat
  if n < 0x80 then [n]
  else if n < 0x800 then [0xC0 + n / 64, 0x80 + n % 64]
  else if n < 0x10000 then [0xE0 + n / 4096, 0x80 + (n / 64) % 64, 0x80 + n % 64]
  else [0xF0 + n / 0x40000, 0x80 + (n / 4096) % 64, 0x80 + (n / 64) % 64, 0x80 + n % 64]

/-- Literal bytes of a string. -/
def strBytes (s : String) : List Nat := (s.data.map utf8Bytes).flatten

/-- Modelled from the spec: the Tauri backend command `send_data` (Rust code
absent from src/, only invoked from App.vue) determines the bytes actually
transmitted.  Per spec §4.3, in hex mode the payload is split on whitespace
and every token must be exactly one or two case-insensitive hexadecimal
digits denoting one byte; in text mode the payload's literal bytes go out
unmodified.  Returns `none` on an invalid hex payload. -/
def send_data_model (data : String) (hexMode : Bool) : Option (List Nat) :=
  if hexMode then parseHexTokens (splitWs data.data)
  else some (strBytes data)

/-! ## Concrete session states used by the claims -/

/-- Connected, hex mode, newline appending off, user typed "ab". -/
def cexSendState : AppState :=
  { initState with
    connected := true
    sendText := "ab"
    config := { defaultAppConfig with
      serial := { defaultAppConfig.serial with hex_mode := true, append_newline := false } } }

/-- Connected, hex mode, default config, user typed the spec's example. -/
def helloState : AppState :=
  { initState with
    connected := true
    sendText := "48 65 6C 6C 6F"
    config := { defaultAppConfig with
      serial := { defaultAppConfig.serial with hex_mode := true } } }

/-- Connected, text mode, default config, user typed "A". -/
def textSendState : AppState :=
  { initState with connected := true, sendText := "A" }

/-- Connected, text mode, newline appending off, user typed "hi". -/
def noNewlineState : AppState :=
  { initState with
    connected := true
    sendText := "hi"
    config := { defaultAppConfig with
      serial := { defaultAppConfig.serial with append_newline := false } } }

/-- Connected, hex mode, user typed the spec's malformed example. -/
def failSendState : AppState :=
  { initState with
    connected := true
    sendText := "AB CD E"
    config := { defaultAppConfig with
      serial := { defaultAppConfig.serial with hex_mode := true } } }

/-! ## Claims about send -/

lemma sendStep_guard_false {st : AppState} (hc : st.connected = true)
    (hs : st.sendText ≠ "") : (st.sendText == "" || !st.connected) = false := by
  rw [hc]
  simp [hs]

/-- The tx entry `send` pushes on success (lines 185-190). -/
def sentEntry (st : AppState) (ts : String) : DataEntry where
  timestamp := ts
  data := st.sendText
  hex := if st.config.serial.hex_mode then st.sendText else stringToHex st.sendText
  direction := "tx"

/-- The tx entry logged by the spec's hex-mode "Hello" example. -/
def helloEntry : DataEntry where
  timestamp := "10:00:00.000"
  data := "48 65 6C 6C 6F"
  hex := "48 65 6C 6C 6F"
  direction := "tx"

/-- C1 (amended): a successful send while connected with nonempty input
appends exactly one tx entry; its hex field is the raw input in hex mode
and `stringToHex` of the input in text mode — so it reflects the user
input before the newline suffix, not the transmitted bytes.  The spec's
concrete example still holds: sending "48 65 6C 6C 6F" in hex mode
transmits the bytes of "Hello" and logs hex "48 65 6C 6C 6F". -/
theorem C1_send_appends_one_tx_entry (st : AppState) (ts : String)
    (hc : st.connected = true) (hs : st.sendText ≠ "") :
    (sendStep st ts (.ok ())).1.dataLog = st.dataLog ++ [sentEntry st ts]
    ∧ (sendStep helloState "10:00:00.000" (.ok ())).1.dataLog = [helloEntry]
    ∧ (sendStep helloState "10:00:00.000" (.ok ())).2 =
      some { data := "48 65 6C 6C 6F\r\n", hexMode := true }
    ∧ send_data_model "48 65 6C 6C 6F\r\n" true = some [0x48, 0x65, 0x6C, 0x6C, 0x6F] := by
  refine ⟨?_, by decide, by decide, by decide⟩
  unfold sendStep sentEntry
  rw [sendStep_guard_false hc hs]
  simp only [Bool.false_eq_true, if_false]
  cases hTerm : st.config.display.terminal_mode <;>
    cases hScroll : st.config.display.auto_scroll <;>
      simp [hTerm, hScroll]

/-- Witness for C1 at the spec's example state. -/
theorem C1_send_appends_one_tx_entry_witness :
    (sendStep helloState "10:00:00.000" (.ok ())).1.dataLog =
      helloState.dataLog ++ [sentEntry helloState "10:00:00.000"] :=
  (C1_send_appends_one_tx_entry helloState "10:00:00.000" rfl (by decide)).1

/-- C1 counterexample: at `cexSendState` the logged hex field is the raw
lowercase input "ab", while the transmitted bytes are `[0xAB]`, whose
canonical uppercase encoding is "AB" — the hex field is not the canonical
encoding of the transmitted bytes. -/
theorem C1_counterexample :
    (sendStep cexSendState "10:00:00.000" (.ok ())).1.dataLog =
      [{ timestamp := "10:00:00.000", data := "ab", hex := "ab", direction := "tx" }]
    ∧ (sendStep cexSendState "10:00:00.000" (.ok ())).2 =
      some { data := "ab", hexMode := true }
    ∧ send_data_model "ab" true = some [171]
    ∧ encodeBytes [171] = "AB"
    ∧ ("ab" : String) ≠ "AB" := by
  have he : encodeBytes [171] = "AB" := by
    rw [encodeBytes, List.map_cons, List.map_nil, byteHexChars_eq (by omega : (171:Nat) < 256)]
    rfl
  exact ⟨by decide, by decide, by decide, he, by decide⟩

/-- C3: when the backend `send_data` call fails, `send` only alerts: the
data log, the input text, the configuration — indeed every other field of
the state — are exactly as before. -/
theorem C3_send_failure_frame (st : AppState) (ts e : String)
    (hc : st.connected = true) (hs : st.sendText ≠ "") :
    (sendStep st ts (.error e)).1 =
      { st with alerts := st.alerts ++ ["发送失败: " ++ e] }
    ∧ (sendStep st ts (.error e)).1.dataLog = st.dataLog
    ∧ (sendStep st ts (.error e)).1.sendText = st.sendText
    ∧ (sendStep st ts (.error e)).1.config = st.config := by
  have h1 : (sendStep st ts (.error e)).1 =
      { st with alerts := st.alerts ++ ["发送失败: " ++ e] } := by
    unfold sendStep
    rw [sendStep_guard_false hc hs]
    simp only [Bool.false_eq_true, if_false]
  exact ⟨h1, by rw [h1], by rw [h1], by rw [h1]⟩

/-- Witness for C3 at the spec's malformed-hex example state. -/
theorem C3_send_failure_frame_witness :
    (sendStep failSendState "10:00:00.000" (.error "InvalidHex")).1 =
      { failSendState with alerts := ["发送失败: InvalidHex"] } :=
  (C3_send_failure_frame failSendState "10:00:00.000" "InvalidHex" rfl (by decide)).1

/-- C4 (amended): the payload forwarded by `send` is the literal input with
no escaping, plus exactly the configured newline suffix; when
`append_newline` is off the payload equals the input unmodified.  (As the
counterexample shows, it is not independent of the newline settings.) -/
theorem C4_text_mode_payload (st : AppState) (ts : String) (r : Except String Unit)
    (hc : st.connected = true) (hs : st.sendText ≠ "") :
    (sendStep st ts r).2 =
      some { data := st.sendText ++ newlineSuffix st.config.serial,
             hexMode := st.config.serial.hex_mode }
    ∧ (st.config.serial.append_newline = false →
        st.sendText ++ newlineSuffix st.config.serial = st.sendText) := by
  constructor
  · unfold sendStep
    rw [sendStep_guard_false hc hs]
    simp only [Bool.false_eq_true, if_false]
    cases r with
    | ok a =>
      cases hTerm : st.config.display.terminal_mode <;>
        cases hScroll : st.config.display.auto_scroll <;>
          simp [hTerm, hScroll]
    | error e2 => rfl
  · intro hoff
    rw [newlineSuffix, hoff]
    simp

/-- Witness for C4 with newline appending off. -/
theorem C4_text_mode_payload_witness :
    (sendStep noNewlineState "10:00:00.000" (.ok ())).2 =
      some { data := "hi", hexMode := false } :=
  (C4_text_mode_payload noNewlineState "10:00:00.000" (.ok ()) rfl (by decide)).1

/-- C4 counterexample: in text mode with the default configuration
(append_newline on, CRLF), sending "A" forwards the payload "A\r\n" to the
backend, not the literal input "A". -/
theorem C4_counterexample :
    (sendStep textSendState "10:00:00.000" (.ok ())).2 =
      some { data := "A\r\n", hexMode := false }
    ∧ ("A\r\n" : String) ≠ "A" := by
  exact ⟨by decide, by decide⟩

/-- C9: invoking send while disconnected or with empty input is a complete
no-op: no backend call is issued and the state is returned unchanged. -/
theorem C9_send_guard_noop (st : AppState) (ts : String) (r : Except String Unit)
    (h : st.sendText = "" ∨ st.connected = false) :
    sendStep st ts r = (st, none) := by
  unfold sendStep
  rcases h with h | h <;> simp [h]

/-- Witness for C9 at the initial (disconnected, empty-input) state. -/
theorem C9_send_guard_noop_witness :
    sendStep initState "10:00:00.000" (.ok ()) = (initState, none) :=
  C9_send_guard_noop initState "10:00:00.000" (.ok ()) (Or.inl rfl)

/-! ## The data-log invariant and the poll loop -/

lemma sendStep_dataLog_cases (st : AppState) (ts : String) (r : Except String Unit) :
    (sendStep st ts r).1.dataLog = st.dataLog ∨
      (sendStep st ts r).1.dataLog = st.dataLog ++ [sentEntry st ts] := by
  by_cases hg : (st.sendText == "" || !st.connected) = true
  · left
    unfold sendStep
    simp [hg]
  · rw [Bool.not_eq_true] at hg
    cases r with
    | ok a =>
      right
      unfold sendStep sentEntry
      rw [hg]
      simp only [Bool.false_eq_true, if_false]
      cases hTerm : st.config.display.terminal_mode <;>
        cases hScroll : st.config.display.auto_scroll <;>
          simp [hTerm, hScroll]
    | error e =>
      left
      unfold sendStep
      rw [hg]
      simp only [Bool.false_eq_true, if_false]

lemma handleTerminalInput_dataLog (st : AppState) (k : String) (c : Bool)
    (r : Except String Unit) :
    (handleTerminalInput st k c r).1.dataLog = st.dataLog := by
  unfold handleTerminalInput
  split
  · rfl
  · cases terminalChar k c with
    | none => rfl
    | some ch => cases r <;> rfl

lemma pollTick_dataLog_cases (st : AppState) (r : Except String (List DataEntry)) :
    (pollTick st r).dataLog = st.dataLog ∨
      ∃ es, r = Except.ok es ∧ es ≠ [] ∧ (pollTick st r).dataLog = st.dataLog ++ es := by
  cases r with
  | ok es =>
    cases es with
    | nil => left; rfl
    | cons a t =>
      right
      refine ⟨a :: t, rfl, by simp, ?_⟩
      unfold pollTick
      simp only []
      cases hScroll : st.config.display.auto_scroll <;> simp [hScroll]
  | error e => left; rfl

/-- Per-operation characterization of the data log: every step either
leaves it alone or appends at the end, except `clear`, which empties it. -/
lemma step_dataLog_cases (st : AppState) (op : Op) :
    (step st op).dataLog = st.dataLog ∨
      (∃ t, t ≠ [] ∧ (step st op).dataLog = st.dataLog ++ t) ∨
      (op = Op.clear ∧ (step st op).dataLog = []) := by
  cases op with
  | refresh r => left; cases r <;> rfl
  | connectOp r rs => left; cases r <;> cases rs <;> rfl
  | disconnectOp r => left; cases r <;> rfl
  | poll r =>
    rcases pollTick_dataLog_cases st r with h | ⟨es, _, hne, hap⟩
    · left; exact h
    · right; left; exact ⟨es, hne, hap⟩
  | sendOp ts r =>
    rcases sendStep_dataLog_cases st ts r with h | h
    · left; exact h
    · right; left; exact ⟨[sentEntry st ts], by simp, h⟩
  | clear => right; right; exact ⟨rfl, rfl⟩
  | configOp c rs => left; cases rs <;> rfl
  | findNextOp =>
    left
    show (findNext st).dataLog = st.dataLog
    unfold findNext
    split <;> rfl
  | findPrevOp =>
    left
    show (findPrev st).dataLog = st.dataLog
    unfold findPrev
    split <;> rfl
  | toggleSearch => left; rfl
  | setSearch s => left; rfl
  | termInput k c r => left; exact handleTerminalInput_dataLog st k c r
  | loadConfigOp r => left; cases r <;> rfl
  | saveLogOp f r => left; cases r <;> rfl

/-- C5: across every operation of a session the data log is append-only —
each step leaves it unchanged or appends entries at the end in order; a
nonempty log becomes empty only through the explicit `clear` action; and
`disconnect` in particular never touches the log. -/
theorem C5_dataLog_append_only :
    (∀ (st : AppState) (op : Op),
      (∃ t, (step st op).dataLog = st.dataLog ++ t) ∨
        (op = Op.clear ∧ (step st op).dataLog = []))
    ∧ (∀ (st : AppState) (op : Op),
        st.dataLog ≠ [] → (step st op).dataLog = [] → op = Op.clear)
    ∧ (∀ (st : AppState) (r : Except String Unit),
        (step st (Op.disconnectOp r)).dataLog = st.dataLog) := by
  refine ⟨?_, ?_, ?_⟩
  · intro st op
    rcases step_dataLog_cases st op with h | ⟨t, _, h⟩ | ⟨hop, h⟩
    · exact Or.inl ⟨[], by simp [h]⟩
    · exact Or.inl ⟨t, h⟩
    · exact Or.inr ⟨hop, h⟩
  · intro st op hne hempty
    rcases step_dataLog_cases st op with h | ⟨t, _, h⟩ | ⟨hop, _⟩
    · exact absurd (h ▸ hempty) hne
    · rw [hempty] at h
      exact absurd (List.append_eq_nil.mp h.symm).1 hne
    · exact hop
  · intro st r
    cases r <;> rfl

/-- A state whose log already holds one received entry. -/
def logState : AppState :=
  { initState with
    dataLog := [{ timestamp := "t", data := "x", hex := "78", direction := "rx" }] }

/-- Witness for C5: on a nonempty log, a step that empties the log is the
explicit clear action. -/
theorem C5_dataLog_append_only_witness : Op.clear = Op.clear :=
  C5_dataLog_append_only.2.1 logState Op.clear (by decide) rfl

/-- C6: a poll tick whose read returns an empty entry list is a success
that changes nothing at all — data log, scroll state, everything — and the
data log grows only on ticks that return at least one entry. -/
theorem C6_empty_poll_noop :
    (∀ st : AppState, pollTick st (.ok []) = st)
    ∧ (∀ (st : AppState) (r : Except String (List DataEntry)),
        (pollTick st r).dataLog = st.dataLog ∨
          ∃ es, r = Except.ok es ∧ es ≠ [] ∧ (pollTick st r).dataLog = st.dataLog ++ es) :=
  ⟨fun _ => rfl, pollTick_dataLog_cases⟩

/-! ## Port enumeration, configuration loading, terminal keystrokes -/

/-- C7 (amended): a failed enumeration leaves the ports list exactly as it
was — possibly a stale previous enumeration, not an emptied list — and
appends a console warning; the handler never aborts. -/
theorem C7_refresh_failure_keeps_ports (st : AppState) (e : String) :
    refreshPortsStep st (.error e) =
      { st with consoleErrors := st.consoleErrors ++ ["获取串口列表失败: " ++ e] }
    ∧ (refreshPortsStep st (.error e)).ports = st.ports := ⟨rfl, rfl⟩

/-- A state remembering one port from an earlier successful enumeration. -/
def portsState : AppState :=
  { initState with ports := [{ name := "COM3", description := "USB Serial" }] }

/-- C7 counterexample: after a failed `refreshPorts` on a state that had
previously enumerated COM3, the ports list still holds the stale COM3
entry instead of being empty, contradicting the claim. -/
theorem C7_counterexample :
    (refreshPortsStep portsState (.error "enumeration failed")).ports =
      [{ name := "COM3", description := "USB Serial" }]
    ∧ ([{ name := "COM3", description := "USB Serial" }] : List PortInfo) ≠ [] :=
  ⟨rfl, by decide⟩

/-- C8: a failed configuration load at startup only logs a warning and
keeps the built-in default configuration, whose fields are port "",
baud 115200, 8 data bits, 1 stop bit, parity none, hex mode off. -/
theorem C8_loadConfig_failure_defaults (st : AppState) (e : String) :
    loadConfigStep st (.error e) =
      { st with consoleErrors := st.consoleErrors ++ ["加载配置失败: " ++ e] }
    ∧ (loadConfigStep initState (.error e)).config = defaultAppConfig
    ∧ defaultAppConfig.serial.port = ""
    ∧ defaultAppConfig.serial.baud_rate = 115200
    ∧ defaultAppConfig.serial.data_bits = 8
    ∧ defaultAppConfig.serial.stop_bits = 1
    ∧ defaultAppConfig.serial.parity = "none"
    ∧ defaultAppConfig.serial.hex_mode = false :=
  ⟨rfl, rfl, rfl, rfl, rfl, rfl, rfl, rfl⟩

/-- Connected state with the interactive terminal mode enabled. -/
def termState : AppState :=
  { initState with
    connected := true
    config := { defaultAppConfig with
      display := { defaultAppConfig.display with terminal_mode := true } } }

/-- C10: evaluation at the failing keystroke Ctrl+A (key "a", ctrlKey
true): because the single-character branch precedes the Ctrl branch, the
handler sends the literal "a" (0x61) in text mode rather than the control
code 0x01 that the claim (and the code's own "Ctrl+A to Ctrl+Z" comment)
prescribe; Enter and Backspace behave as claimed and the data log is
untouched. -/
theorem C10_ctrl_keystroke_sends_literal :
    terminalChar "a" true = some "a"
    ∧ (handleTerminalInput termState "a" true (.ok ())).2 =
      some { data := "a", hexMode := false }
    ∧ (handleTerminalInput termState "a" true (.ok ())).1.dataLog = []
    ∧ ("a" : String) ≠ "\x01"
    ∧ terminalChar "Enter" false = some "\r"
    ∧ terminalChar "Backspace" false = some "\x7f" :=
  ⟨by decide, by decide, by decide, by decide, by decide, by decide⟩

end XTools
